import Mathlib

/-
Verification of the AstroGuessr adaptive scoring/learning core.

Shallow embedding of:
  * backend/models/user_model.py   (module user_store: InMemoryUserStore)
  * backend/models/model_wrapper.py (ModelWrapper)
  * backend/models/dataset_model.py (module data_loader: get_lightcurve)
  * backend/services/score_services.py (ScoreService, compute_level, badge rules)
  * backend/routes/explorer_routes.py (ExplorerEngine.get_ai_hint)

Modelling conventions:
  * Python floats are modelled as rationals (ℚ); Python ints as ℤ.
  * numpy's std is an external library routine: the embedding takes it as an
    explicit parameter stdFn applied to exactly the window the code slices.
  * The sklearn SGDClassifier coefficient state is external: the embedding
    records the exact sequence of (feature vector, label) examples the code
    feeds to sklearn partial updates, plus the wrapper's own trained flag
    (the code's lazily set boolean); the trained-state probability output is
    an explicit parameter probFn of that recorded state.
  * The store's last_active wall-clock timestamps are omitted: no claim and
    no branch of the embedded code reads them.
  * Python dicts are association lists in insertion order, matching dict
    iteration order, which the leaderboard observes.
-/

namespace AstroGuessr

/-! ### user_model.py (user_store.InMemoryUserStore) -/

/-- One user record of `InMemoryUserStore.user_data`.  The default record
created by `_ensure_user` has keys score, streak, badges only; the key
"total_correct" may be absent, hence the `Option`. -/
structure UserRec where
  score : ℤ
  streak : ℤ
  badges : List String
  totalCorrect : Option ℤ
deriving DecidableEq

/-- `_ensure_user`'s fresh record: `{"score": 0, "streak": 0, "badges": []}`
(plus a wall-clock timestamp, omitted). -/
def defaultUser : UserRec :=
  { score := 0, streak := 0, badges := [], totalCorrect := none }

/-- `user_data` as an insertion-ordered association list. -/
abbrev Store := List (String × UserRec)

/-- Key lookup in `user_data`. -/
def findUser : Store → String → Option UserRec
  | [], _ => none
  | (k, v) :: rest, uid => if k = uid then some v else findUser rest uid

/-- The record a lookup observes (default where absent; every embedded
operation ensures presence before reading, so the default is never seen
along the code's paths). -/
def getRec (st : Store) (uid : String) : UserRec :=
  (findUser st uid).getD defaultUser

/-- `_ensure_user`: insert a fresh default record at the end of the dict
when the key is absent. -/
def ensureUser (st : Store) (uid : String) : Store :=
  match findUser st uid with
  | some _ => st
  | none => st ++ [(uid, defaultUser)]

/-- Overwrite the record stored under an existing key, in place (keys are
unique along every reachable store; absent keys are untouched). -/
def writeUser : Store → String → UserRec → Store
  | [], _, _ => []
  | (k, w) :: rest, uid, v =>
    if k = uid then (uid, v) :: writeUser rest uid v
    else (k, w) :: writeUser rest uid v

/-- ensure-then-mutate, the shape of every mutating store operation and of
the service's in-place edits of the dict returned by `get_user`. -/
def modifyUser (st : Store) (uid : String) (f : UserRec → UserRec) : Store :=
  let st1 := ensureUser st uid
  writeUser st1 uid (f (getRec st1 uid))

/-- `increment_score`: `score = max(0, score + delta)`. -/
def incrementScore (st : Store) (uid : String) (d : ℤ) : Store :=
  modifyUser st uid fun r => { r with score := max 0 (r.score + d) }

/-- `award_badge`: append the badge only when not already present. -/
def awardBadge (st : Store) (uid : String) (b : String) : Store :=
  modifyUser st uid fun r =>
    { r with badges := if b ∈ r.badges then r.badges else r.badges ++ [b] }

/-- The service's `user['streak'] = v` writes through the live dict
returned by `get_user` (which ensures the user exists first). -/
def setStreak (st : Store) (uid : String) (v : ℤ) : Store :=
  modifyUser st uid fun r => { r with streak := v }

/-- `update_user(user_id, total_correct=n)`, the only keyword update the
service performs. -/
def setTotalCorrect (st : Store) (uid : String) (n : ℤ) : Store :=
  modifyUser st uid fun r => { r with totalCorrect := some n }

/-- One leaderboard row `{user_id, score, streak}`. -/
structure LBEntry where
  userId : String
  score : ℤ
  streak : ℤ
deriving DecidableEq

/-- Descending lexicographic order on the `(score, uid)` pairs that
`get_leaderboard` builds: exactly the order in which `heapq.nlargest`
emits tuples (largest first; score ties fall back to the string order of
the user id). -/
def lexGE (a b : ℤ × String) : Prop :=
  b.1 < a.1 ∨ (a.1 = b.1 ∧ b.2 ≤ a.2)

instance : DecidableRel lexGE := fun a b => by
  unfold lexGE; infer_instance

instance : IsTotal (ℤ × String) lexGE where
  total a b := by
    unfold lexGE
    rcases lt_trichotomy a.1 b.1 with h | h | h
    · right; left; exact h
    · rcases le_total a.2 b.2 with h2 | h2
      · right; right; exact ⟨h.symm, h2⟩
      · left; right; exact ⟨h, h2⟩
    · left; left; exact h

instance : IsTrans (ℤ × String) lexGE where
  trans a b c hab hbc := by
    unfold lexGE at hab hbc ⊢
    rcases hab with h1 | ⟨h1, h1s⟩ <;> rcases hbc with h2 | ⟨h2, h2s⟩
    · left; omega
    · left; omega
    · left; omega
    · right; exact ⟨h1.trans h2, h2s.trans h1s⟩

/-- `get_leaderboard`: pair every user with its score, keep the `top_n`
largest `(score, uid)` tuples in descending tuple order, and read each
row's streak back from the dict.  `heapq.nlargest n xs` returns the first
`n` elements of the unique `lexGE`-sorted arrangement of `xs`, which
`List.insertionSort lexGE` produces (`lexGE` is total, transitive and
antisymmetric, so the sorted arrangement is unique). -/
def getLeaderboard (st : Store) (topN : ℕ) : List LBEntry :=
  let items := st.map fun p => (p.2.score, p.1)
  let top := (List.insertionSort lexGE items).take topN
  top.map fun q => { userId := q.2, score := q.1, streak := (getRec st q.2).streak }

/-! ### model_wrapper.py (ModelWrapper) -/

/-- The wrapper state: the `_initialized` flag (here `trained`) and the
sequence of single examples fed to the online classifier.  A freshly
constructed wrapper with no model file on disk has `trained = false`. -/
structure ModelState where
  trained : Bool
  history : List (List ℚ × ℤ)
deriving DecidableEq

/-- The Uninitialized classifier state (no prior fit, nothing loaded). -/
def ModelState.uninit : ModelState := { trained := false, history := [] }

/-- `ModelWrapper.featurize`: `[flux[index], flux[index]-prev, nxt-flux[index],
std(flux[max(0,index-3):min(n,index+4)])]` with `prev`/`nxt` clamped to
`flux[index]` at the array ends.  `stdFn` stands for `np.std`; natural
subtraction makes `index - 3` the code's `max(0, index-3)`. -/
def featurize (stdFn : List ℚ → ℚ) (time flux : List ℚ) (index : ℕ) : List ℚ :=
  let _ := time
  let n := flux.length
  let val := flux.getD index 0
  let prev := if 1 ≤ index then flux.getD (index - 1) 0 else val
  let nxt := if index + 1 < n then flux.getD (index + 1) 0 else val
  let window := (flux.drop (index - 3)).take (min n (index + 4) - (index - 3))
  [val, val - prev, nxt - val, stdFn window]

/-- `ModelWrapper.predict_proba`: featurize, then return the fixed neutral
`0.5` while untrained, else the fitted model's class-1 probability
(`probFn`, standing for sklearn's `predict_proba(x)[0][1]`). -/
def predictProba (probFn : List (List ℚ × ℤ) → List ℚ → ℚ) (stdFn : List ℚ → ℚ)
    (m : ModelState) (time flux : List ℚ) (index : ℕ) : ℚ :=
  let x := featurize stdFn time flux index
  if m.trained then probFn m.history x else 1/2

/-- `ModelWrapper.predict`: threshold the probability at `threshold`
(default 0.5), class 1 when `proba >= threshold`. -/
def predict (probFn : List (List ℚ × ℤ) → List ℚ → ℚ) (stdFn : List ℚ → ℚ)
    (m : ModelState) (time flux : List ℚ) (index : ℕ) (threshold : ℚ) : ℤ :=
  if threshold ≤ predictProba probFn stdFn m time flux index then 1 else 0

/-- `ModelWrapper.partial_fit`: featurize, apply one incremental update
(recorded as appending the example), set the trained flag (on the first
call the code also fixes the class domain {0,1}, part of the sklearn call
this state abstracts). -/
def partialFit (stdFn : List ℚ → ℚ) (m : ModelState)
    (time flux : List ℚ) (index : ℕ) (label : ℤ) : ModelState :=
  { trained := true
    history := m.history ++ [(featurize stdFn time flux index, label)] }

/-! ### dataset_model.py (data_loader) -/

/-- One light curve: parallel time/flux/label arrays. -/
structure LightCurve where
  time : List ℚ
  flux : List ℚ
  label : List ℤ
deriving DecidableEq

/-- The loaded dataset keyed by `lc_id`. -/
abbrev Dataset := List (ℤ × LightCurve)

/-- `get_lightcurve`: `none` models the `KeyError` for an unknown id. -/
def getLightcurve : Dataset → ℤ → Option LightCurve
  | [], _ => none
  | (k, lc) :: rest, lcId => if k = lcId then some lc else getLightcurve rest lcId

/-! ### score_services.py -/

/-- The `LEVELS` table. -/
def LEVELS : List (String × ℤ) :=
  [("Novice Seeker", 0), ("Certified Hunter", 500), ("Guild Master", 2500)]

/-- `compute_level`: start from `LEVELS[0][0]` and keep the last tier whose
threshold is not above the score. -/
def computeLevel (score : ℤ) : String :=
  LEVELS.foldl (fun cur p => if p.2 ≤ score then p.1 else cur) (LEVELS.headD ("", 0)).1

/-- `BADGE_RULES["Rare Candidate"]["streak_min"]`. -/
def rareCandidateMin : ℤ := 7

/-- `BADGE_RULES["Consistent"]["total_hits_min"]`. -/
def consistentMin : ℤ := 50

/-- `ScoreService._award_badges`: one read of the user record, then each
rule awards idempotently via the store. -/
def awardBadges (st : Store) (uid : String) : Store :=
  let st0 := ensureUser st uid
  let u := getRec st0 uid
  let st1 := if rareCandidateMin ≤ u.streak then awardBadge st0 uid "Rare Candidate" else st0
  if consistentMin ≤ u.totalCorrect.getD 0 then awardBadge st1 uid "Consistent" else st1

/-- `ScoreService._ensure_user_fields`: ensure the user exists and give it
a `total_correct` of 0 when the key is absent. -/
def ensureUserFields (st : Store) (uid : String) : Store :=
  let st0 := ensureUser st uid
  if (getRec st0 uid).totalCorrect = none then
    modifyUser st0 uid fun r => { r with totalCorrect := some 0 }
  else st0

/-- The exceptions `process_user_click` / `get_ai_hint` raise: `KeyError`
for an unknown lc_id, `ValueError` for an out-of-range click index. -/
inductive GuessError
  | notFound (lcId : ℤ)
  | outOfRange (clickIndex : ℤ)
deriving DecidableEq

/-- The fields of the result dict `process_user_click` builds. -/
structure GuessOutcome where
  isCorrect : Bool
  newScore : ℤ
  streak : ℤ
  level : String
  badges : List String
  totalCorrect : ℤ
deriving DecidableEq

/-- Values a result dict holds. -/
inductive PyVal
  | pyBool (b : Bool)
  | pyInt (n : ℤ)
  | pyStr (s : String)
  | pyStrList (l : List String)
deriving DecidableEq

/-- The literal result dict of `process_user_click` step 6, key by key in
source order. -/
def resultDict (o : GuessOutcome) : List (String × PyVal) :=
  [("is_correct", PyVal.pyBool o.isCorrect),
   ("new_score", PyVal.pyInt o.newScore),
   ("streak", PyVal.pyInt o.streak),
   ("level", PyVal.pyStr o.level),
   ("badges", PyVal.pyStrList o.badges),
   ("total_correct", PyVal.pyInt o.totalCorrect)]

/-- Key lookup in a result dict. -/
def dictLookup : List (String × PyVal) → String → Option PyVal
  | [], _ => none
  | (k, v) :: rest, key => if k = key then some v else dictLookup rest key

/-- `ScoreService.process_user_click`, stage for stage.  `fitOk` states
whether the external sklearn update inside the try/except raises; the
caught exception leaves the recorded model state as before the call.
Returns the store, the model and the result (or the raised error); on an
error the inputs pass through untouched, exactly as in the code, where the
two raises precede every mutation. -/
def processUserClick (stdFn : List ℚ → ℚ) (basePoints penalty : ℤ) (fitOk : Bool)
    (dataset : Dataset) (store : Store) (model : ModelState)
    (userId : String) (lcId : ℤ) (clickIndex : ℤ) :
    Store × ModelState × Except GuessError GuessOutcome :=
  match getLightcurve dataset lcId with
  | none => (store, model, Except.error (GuessError.notFound lcId))
  | some lc =>
    if clickIndex < 0 ∨ (lc.label.length : ℤ) ≤ clickIndex then
      (store, model, Except.error (GuessError.outOfRange clickIndex))
    else
      let i := clickIndex.toNat
      let st1 := ensureUserFields store userId
      let isCorrect : Bool := lc.label.getD i 0 != 0
      let u := getRec st1 userId
      let st4 :=
        if isCorrect then
          let st2 := setStreak st1 userId (u.streak + 1)
          let gained := basePoints * (u.streak + 1)
          let st3 := incrementScore st2 userId gained
          setTotalCorrect st3 userId (u.totalCorrect.getD 0 + 1)
        else
          let st2 := setStreak st1 userId 0
          incrementScore st2 userId (-penalty)
      let newLevel := computeLevel (getRec st4 userId).score
      let st5 := awardBadges st4 userId
      let model' :=
        if fitOk then partialFit stdFn model lc.time lc.flux i (if isCorrect then 1 else 0)
        else model
      let finalU := getRec st5 userId
      (st5, model',
        Except.ok
          { isCorrect := isCorrect
            newScore := finalU.score
            streak := finalU.streak
            level := newLevel
            badges := finalU.badges
            totalCorrect := finalU.totalCorrect.getD 0 })

/-! ### explorer_routes.py (ExplorerEngine) -/

/-- The `{ai_probability, ai_prediction}` hint. -/
structure AiHint where
  aiProbability : ℚ
  aiPrediction : ℤ
deriving DecidableEq

/-- `ExplorerEngine.get_ai_hint`: fetch the curve, validate the index
against `len(time)`, query the probability, threshold at 0.5. -/
def getAiHint (probFn : List (List ℚ × ℤ) → List ℚ → ℚ) (stdFn : List ℚ → ℚ)
    (dataset : Dataset) (model : ModelState) (lcId : ℤ) (clickIndex : ℤ) :
    Except GuessError AiHint :=
  match getLightcurve dataset lcId with
  | none => Except.error (GuessError.notFound lcId)
  | some lc =>
    if clickIndex < 0 ∨ (lc.time.length : ℤ) ≤ clickIndex then
      Except.error (GuessError.outOfRange clickIndex)
    else
      let prob := predictProba probFn stdFn model lc.time lc.flux clickIndex.toNat
      Except.ok { aiProbability := prob, aiPrediction := if 1/2 ≤ prob then 1 else 0 }

/-! ### The store's mutating operation surface

The operations the system ever applies to a store: user creation on first
reference, score increments, the streak writes the service performs through
the live record, the `total_correct` keyword update, and badge awards. -/

inductive StoreOp
  | getOrCreate (uid : String)
  | incScore (uid : String) (d : ℤ)
  | setStreakOp (uid : String) (v : ℤ)
  | setTotalCorrectOp (uid : String) (n : ℤ)
  | award (uid b : String)
deriving DecidableEq

def applyOp (st : Store) : StoreOp → Store
  | StoreOp.getOrCreate uid => ensureUser st uid
  | StoreOp.incScore uid d => incrementScore st uid d
  | StoreOp.setStreakOp uid v => setStreak st uid v
  | StoreOp.setTotalCorrectOp uid n => setTotalCorrect st uid n
  | StoreOp.award uid b => awardBadge st uid b

/-! ### Spec-side feature vector (for the refinement comparison)

`extractSpec` transcribes §4.1 of the specification word for word: the
clamped neighbor deltas are written as the zero the spec says the
substitution yields, and the window is the spec's half-open
`[max(0, index-3), min(length, index+4))` slice. -/

def extractSpec (stdFn : List ℚ → ℚ) (flux : List ℚ) (index : ℕ) : List ℚ :=
  [flux.getD index 0,
   if index = 0 then 0 else flux.getD index 0 - flux.getD (index - 1) 0,
   if flux.length ≤ index + 1 then 0 else flux.getD (index + 1) 0 - flux.getD index 0,
   stdFn ((flux.drop (index - 3)).take (min flux.length (index + 4) - (index - 3)))]

/-! ### Concrete data for witnesses and counterexamples -/

/-- A stand-in for `np.std` in concrete runs (the guess outcome and the
progression state never depend on its values). -/
def stdFn0 : List ℚ → ℚ := fun _ => 0

/-- A three-sample light curve whose labels make clicks 0 and 1 correct
and click 2 incorrect. -/
def demoLC : LightCurve :=
  { time := [0, 1, 2], flux := [1, 2, 3], label := [1, 1, 0] }

def demoDataset : Dataset := [(1, demoLC)]

/-- The spec's scenario: user u1 from `{score: 0, streak: 0}`, guesses
correct, correct, incorrect. -/
def scen1 : Store × ModelState × Except GuessError GuessOutcome :=
  processUserClick stdFn0 10 5 true demoDataset [] ModelState.uninit "u1" 1 0

def scen2 : Store × ModelState × Except GuessError GuessOutcome :=
  processUserClick stdFn0 10 5 true demoDataset scen1.1 scen1.2.1 "u1" 1 1

def scen3 : Store × ModelState × Except GuessError GuessOutcome :=
  processUserClick stdFn0 10 5 true demoDataset scen2.1 scen2.2.1 "u1" 1 2

/-- A one-user store already holding a badge. -/
def badgeStore : Store :=
  [("u1", { score := 0, streak := 0, badges := ["Rare Candidate"], totalCorrect := some 0 })]

/-- A three-user store for the leaderboard scenario. -/
def lbStore : Store :=
  [("a", { score := 5, streak := 1, badges := [], totalCorrect := none }),
   ("b", { score := 9, streak := 0, badges := [], totalCorrect := none }),
   ("c", { score := 1, streak := 2, badges := [], totalCorrect := none })]

/-! ### Store lemmas -/

theorem findUser_append_of_none {st : Store} {uid : String} (l : Store)
    (h : findUser st uid = none) : findUser (st ++ l) uid = findUser l uid := by
  induction st with
  | nil => rfl
  | cons p rest ih =>
    obtain ⟨k, v⟩ := p
    by_cases hk : k = uid
    · simp [findUser, hk] at h
    · simp only [findUser, hk, if_neg] at h ⊢
      simpa [List.cons_append, findUser, hk] using ih h

theorem findUser_append_of_some {st : Store} {uid : String} {u : UserRec} (l : Store)
    (h : findUser st uid = some u) : findUser (st ++ l) uid = some u := by
  induction st with
  | nil => simp [findUser] at h
  | cons p rest ih =>
    obtain ⟨k, v⟩ := p
    by_cases hk : k = uid
    · simp_all [findUser, List.cons_append]
    · simp only [findUser, hk, if_neg] at h
      simpa [List.cons_append, findUser, hk] using ih h

theorem findUser_ensure_self (st : Store) (uid : String) :
    findUser (ensureUser st uid) uid = some (getRec st uid) := by
  unfold ensureUser getRec
  cases h : findUser st uid with
  | some u => simp [h]
  | none => simp [h, findUser_append_of_none _ h, findUser]

theorem getRec_ensure_any (st : Store) (uid uid' : String) :
    getRec (ensureUser st uid') uid = getRec st uid := by
  unfold ensureUser
  cases h : findUser st uid' with
  | some u => rfl
  | none =>
    unfold getRec
    cases h2 : findUser st uid with
    | some w => rw [findUser_append_of_some _ h2]
    | none =>
      rw [findUser_append_of_none _ h2]
      by_cases hk : uid' = uid
      · subst hk; rw [h2] at h; cases h
        simp [findUser]
      · simp [findUser, hk]

theorem findUser_write_of_some {st : Store} {uid : String} {u : UserRec} (v : UserRec)
    (h : findUser st uid = some u) : findUser (writeUser st uid v) uid = some v := by
  induction st with
  | nil => simp [findUser] at h
  | cons p rest ih =>
    obtain ⟨k, w⟩ := p
    by_cases hk : k = uid
    · subst hk
      simp [writeUser, findUser]
    · simp only [findUser, hk, if_neg] at h
      simpa [writeUser, findUser, hk] using ih h

theorem findUser_write_other {st : Store} {uid uid' : String} (v : UserRec)
    (h : uid ≠ uid') : findUser (writeUser st uid' v) uid = findUser st uid := by
  induction st with
  | nil => rfl
  | cons p rest ih =>
    obtain ⟨k, w⟩ := p
    by_cases hk : k = uid'
    · subst hk
      simp [writeUser, findUser, Ne.symm h, ih]
    · by_cases hu : k = uid
      · subst hu
        simp [writeUser, findUser, hk]
      · simp [writeUser, findUser, hk, hu, ih]

theorem getRec_modify_self (st : Store) (uid : String) (f : UserRec → UserRec) :
    getRec (modifyUser st uid f) uid = f (getRec st uid) := by
  unfold modifyUser
  rw [getRec, findUser_write_of_some _ (findUser_ensure_self st uid)]
  rw [Option.getD_some]
  congr 1
  calc getRec (ensureUser st uid) uid
      = (findUser (ensureUser st uid) uid).getD defaultUser := rfl
    _ = getRec st uid := by rw [findUser_ensure_self]; rfl

theorem getRec_modify_other (st : Store) {uid uid' : String} (f : UserRec → UserRec)
    (h : uid ≠ uid') : getRec (modifyUser st uid' f) uid = getRec st uid := by
  unfold modifyUser
  rw [getRec, findUser_write_other _ h, ← getRec, getRec_ensure_any]

theorem getRec_ensureUserFields_self (st : Store) (uid : String) :
    getRec (ensureUserFields st uid) uid =
      { getRec st uid with totalCorrect := some ((getRec st uid).totalCorrect.getD 0) } := by
  simp only [ensureUserFields]
  by_cases h : (getRec (ensureUser st uid) uid).totalCorrect = none
  · rw [if_pos h, getRec_modify_self, getRec_ensure_any]
    rw [getRec_ensure_any] at h
    rw [h]
    rfl
  · rw [if_neg h, getRec_ensure_any]
    rw [getRec_ensure_any] at h
    cases h2 : (getRec st uid).totalCorrect with
    | none => exact absurd h2 h
    | some t => cases hr : getRec st uid; simp_all

theorem getRec_awardBadge_score (st : Store) (uid uid' b : String) :
    (getRec (awardBadge st uid' b) uid).score = (getRec st uid).score := by
  unfold awardBadge
  by_cases h : uid = uid'
  · subst h; rw [getRec_modify_self]
  · rw [getRec_modify_other _ _ h]

theorem getRec_awardBadge_streak (st : Store) (uid uid' b : String) :
    (getRec (awardBadge st uid' b) uid).streak = (getRec st uid).streak := by
  unfold awardBadge
  by_cases h : uid = uid'
  · subst h; rw [getRec_modify_self]
  · rw [getRec_modify_other _ _ h]

theorem getRec_awardBadge_totalCorrect (st : Store) (uid uid' b : String) :
    (getRec (awardBadge st uid' b) uid).totalCorrect = (getRec st uid).totalCorrect := by
  unfold awardBadge
  by_cases h : uid = uid'
  · subst h; rw [getRec_modify_self]
  · rw [getRec_modify_other _ _ h]

theorem getRec_awardBadges_score (st : Store) (uid uid' : String) :
    (getRec (awardBadges st uid') uid).score = (getRec st uid).score := by
  simp only [awardBadges]
  split <;> split <;>
    simp [getRec_awardBadge_score, getRec_ensure_any]

theorem getRec_awardBadges_streak (st : Store) (uid uid' : String) :
    (getRec (awardBadges st uid') uid).streak = (getRec st uid).streak := by
  simp only [awardBadges]
  split <;> split <;>
    simp [getRec_awardBadge_streak, getRec_ensure_any]

theorem getRec_awardBadges_totalCorrect (st : Store) (uid uid' : String) :
    (getRec (awardBadges st uid') uid).totalCorrect = (getRec st uid).totalCorrect := by
  simp only [awardBadges]
  split <;> split <;>
    simp [getRec_awardBadge_totalCorrect, getRec_ensure_any]

/-- Core characterization of the valid-guess path of `process_user_click`:
the returned outcome, expressed over the caller-visible pre-state. -/
theorem process_valid_fields (stdFn : List ℚ → ℚ) (bp pen : ℤ) (fitOk : Bool)
    (dataset : Dataset) (store : Store) (model : ModelState)
    (uid : String) (lcId ci : ℤ) (lc : LightCurve)
    (hlc : getLightcurve dataset lcId = some lc)
    (h0 : 0 ≤ ci) (hlen : ci < (lc.label.length : ℤ)) :
    ∃ o : GuessOutcome,
      (processUserClick stdFn bp pen fitOk dataset store model uid lcId ci).2.2 =
        Except.ok o ∧
      o.isCorrect = (lc.label.getD ci.toNat 0 != 0) ∧
      (o.isCorrect = true →
        o.streak = (getRec store uid).streak + 1 ∧
        o.newScore = max 0 ((getRec store uid).score + bp * ((getRec store uid).streak + 1)) ∧
        o.totalCorrect = (getRec store uid).totalCorrect.getD 0 + 1) ∧
      (o.isCorrect = false →
        o.streak = 0 ∧
        o.newScore = max 0 ((getRec store uid).score - pen) ∧
        o.totalCorrect = (getRec store uid).totalCorrect.getD 0) := by
  have hneg : ¬ (ci < 0 ∨ (lc.label.length : ℤ) ≤ ci) := by
    rw [not_or]; constructor <;> omega
  simp only [processUserClick, hlc, if_neg hneg]
  refine ⟨_, rfl, rfl, ?_, ?_⟩
  · intro hc
    simp only at hc
    simp only [hc, if_pos, if_true]
    refine ⟨?_, ?_, ?_⟩ <;>
      simp [getRec_awardBadges_score, getRec_awardBadges_streak,
        getRec_awardBadges_totalCorrect, setTotalCorrect, incrementScore, setStreak,
        getRec_modify_self, getRec_ensureUserFields_self]
  · intro hc
    simp only at hc
    simp only [hc, if_neg, Bool.false_eq_true, if_false]
    refine ⟨?_, ?_, ?_⟩ <;>
      simp [getRec_awardBadges_score, getRec_awardBadges_streak,
        getRec_awardBadges_totalCorrect, incrementScore, setStreak,
        getRec_modify_self, getRec_ensureUserFields_self, sub_eq_add_neg]

/-! ### Badge monotonicity and idempotence machinery -/

theorem badge_mem_modify {f : UserRec → UserRec}
    (hf : ∀ r, ∀ x ∈ r.badges, x ∈ (f r).badges)
    (st : Store) (uid uid' b : String) (hb : b ∈ (getRec st uid).badges) :
    b ∈ (getRec (modifyUser st uid' f) uid).badges := by
  by_cases h : uid = uid'
  · subst h; rw [getRec_modify_self]; exact hf _ _ hb
  · rw [getRec_modify_other _ _ h]; exact hb

theorem badge_mem_ensure (st : Store) (uid uid' b : String)
    (hb : b ∈ (getRec st uid).badges) :
    b ∈ (getRec (ensureUser st uid') uid).badges := by
  rw [getRec_ensure_any]; exact hb

theorem badge_mem_incrementScore (st : Store) (uid uid' : String) (d : ℤ) (b : String)
    (hb : b ∈ (getRec st uid).badges) :
    b ∈ (getRec (incrementScore st uid' d) uid).badges := by
  unfold incrementScore
  exact badge_mem_modify (f := fun r => { r with score := max 0 (r.score + d) })
    (fun r _ hx => hx) st uid uid' b hb

theorem badge_mem_setStreak (st : Store) (uid uid' : String) (v : ℤ) (b : String)
    (hb : b ∈ (getRec st uid).badges) :
    b ∈ (getRec (setStreak st uid' v) uid).badges := by
  unfold setStreak
  exact badge_mem_modify (f := fun r => { r with streak := v })
    (fun r _ hx => hx) st uid uid' b hb

theorem badge_mem_setTotalCorrect (st : Store) (uid uid' : String) (n : ℤ) (b : String)
    (hb : b ∈ (getRec st uid).badges) :
    b ∈ (getRec (setTotalCorrect st uid' n) uid).badges := by
  unfold setTotalCorrect
  exact badge_mem_modify (f := fun r => { r with totalCorrect := some n })
    (fun r _ hx => hx) st uid uid' b hb

theorem badge_mem_awardBadge (st : Store) (uid uid' b' b : String)
    (hb : b ∈ (getRec st uid).badges) :
    b ∈ (getRec (awardBadge st uid' b') uid).badges := by
  refine badge_mem_modify ?_ st uid uid' b hb
  intro r x hx
  dsimp only
  split
  · exact hx
  · exact List.mem_append_left _ hx

theorem badge_mem_ensureUserFields (st : Store) (uid uid' b : String)
    (hb : b ∈ (getRec st uid).badges) :
    b ∈ (getRec (ensureUserFields st uid') uid).badges := by
  simp only [ensureUserFields]
  split
  · exact badge_mem_modify (f := fun r => { r with totalCorrect := some 0 })
      (fun r _ hx => hx) _ uid uid' b (badge_mem_ensure st uid uid' b hb)
  · exact badge_mem_ensure st uid uid' b hb

theorem badge_mem_awardBadges (st : Store) (uid uid' b : String)
    (hb : b ∈ (getRec st uid).badges) :
    b ∈ (getRec (awardBadges st uid') uid).badges := by
  simp only [awardBadges]
  split <;> split <;>
    first
      | exact badge_mem_awardBadge _ uid uid' _ b
          (badge_mem_awardBadge _ uid uid' _ b (badge_mem_ensure st uid uid' b hb))
      | exact badge_mem_awardBadge _ uid uid' _ b (badge_mem_ensure st uid uid' b hb)
      | exact badge_mem_ensure st uid uid' b hb

theorem badge_mem_processUserClick (stdFn : List ℚ → ℚ) (bp pen : ℤ) (fitOk : Bool)
    (dataset : Dataset) (store : Store) (model : ModelState)
    (userId : String) (lcId ci : ℤ) (uid b : String)
    (hb : b ∈ (getRec store uid).badges) :
    b ∈ (getRec (processUserClick stdFn bp pen fitOk dataset store model userId lcId ci).1
      uid).badges := by
  cases hlc : getLightcurve dataset lcId with
  | none => simpa [processUserClick, hlc] using hb
  | some lc =>
    by_cases hv : ci < 0 ∨ (lc.label.length : ℤ) ≤ ci
    · simpa [processUserClick, hlc, hv] using hb
    · simp only [processUserClick, hlc, if_neg hv]
      refine badge_mem_awardBadges _ uid userId b ?_
      split
      · exact badge_mem_setTotalCorrect _ uid userId _ b
          (badge_mem_incrementScore _ uid userId _ b
            (badge_mem_setStreak _ uid userId _ b
              (badge_mem_ensureUserFields store uid userId b hb)))
      · exact badge_mem_incrementScore _ uid userId _ b
          (badge_mem_setStreak _ uid userId _ b
            (badge_mem_ensureUserFields store uid userId b hb))

/-- Keys absent from the store are left alone by `writeUser`. -/
theorem writeUser_of_none {st : Store} {uid : String} (v : UserRec)
    (h : findUser st uid = none) : writeUser st uid v = st := by
  induction st with
  | nil => rfl
  | cons p rest ih =>
    obtain ⟨k, w⟩ := p
    by_cases hk : k = uid
    · simp [findUser, hk] at h
    · simp only [findUser, hk, if_neg] at h
      simp [writeUser, hk, ih h]

theorem findUser_eq_none_of_not_mem {st : Store} {uid : String}
    (h : uid ∉ st.map Prod.fst) : findUser st uid = none := by
  induction st with
  | nil => rfl
  | cons p rest ih =>
    obtain ⟨k, w⟩ := p
    simp only [List.map_cons, List.mem_cons, not_or] at h
    have hk : ¬ k = uid := fun hk => h.1 hk.symm
    simp [findUser, hk, ih h.2]

/-- Writing back the record already stored under a key is a no-op on a
store with unique keys (every store reachable from a Python dict). -/
theorem writeUser_self {st : Store} {uid : String} {u : UserRec}
    (hnd : (st.map Prod.fst).Nodup) (h : findUser st uid = some u) :
    writeUser st uid u = st := by
  induction st with
  | nil => rfl
  | cons p rest ih =>
    obtain ⟨k, w⟩ := p
    simp only [List.map_cons, List.nodup_cons] at hnd
    by_cases hk : k = uid
    · subst hk
      simp [findUser] at h
      subst h
      have : findUser rest k = none := findUser_eq_none_of_not_mem hnd.1
      simp [writeUser, writeUser_of_none _ this]
    · simp only [findUser, hk, if_neg] at h
      simp [writeUser, hk, ih hnd.2 h]

theorem badge_mem_applyOp (st : Store) (op : StoreOp) (uid b : String)
    (hb : b ∈ (getRec st uid).badges) :
    b ∈ (getRec (applyOp st op) uid).badges := by
  cases op with
  | getOrCreate u => exact badge_mem_ensure st uid u b hb
  | incScore u d => exact badge_mem_incrementScore st uid u d b hb
  | setStreakOp u v => exact badge_mem_setStreak st uid u v b hb
  | setTotalCorrectOp u n => exact badge_mem_setTotalCorrect st uid u n b hb
  | award u b' => exact badge_mem_awardBadge st uid u b' b hb

theorem badge_mem_foldl (ops : List StoreOp) : ∀ (st : Store) (uid b : String),
    b ∈ (getRec st uid).badges →
    b ∈ (getRec (ops.foldl applyOp st) uid).badges := by
  induction ops with
  | nil => intro st uid b hb; exact hb
  | cons op rest ih =>
    intro st uid b hb
    exact ih (applyOp st op) uid b (badge_mem_applyOp st op uid b hb)

/-! ### Claim theorems -/

/-- C2: a guess against an unknown lightcurve id or an out-of-range click
index raises (`KeyError` resp. `ValueError`) and returns with the
progression store and the classifier state exactly as they were before the
call: no user record is created or mutated. -/
theorem C2_failfast_no_mutation (stdFn : List ℚ → ℚ) (bp pen : ℤ) (fitOk : Bool)
    (dataset : Dataset) (store : Store) (model : ModelState)
    (uid : String) (lcId ci : ℤ) :
    (getLightcurve dataset lcId = none →
      processUserClick stdFn bp pen fitOk dataset store model uid lcId ci =
        (store, model, Except.error (GuessError.notFound lcId))) ∧
    (∀ lc, getLightcurve dataset lcId = some lc →
      (ci < 0 ∨ (lc.label.length : ℤ) ≤ ci) →
      processUserClick stdFn bp pen fitOk dataset store model uid lcId ci =
        (store, model, Except.error (GuessError.outOfRange ci))) := by
  constructor
  · intro h
    simp [processUserClick, h]
  · intro lc h hv
    simp [processUserClick, h, hv]

/-- C2 witness: both failure modes at concrete inputs (unknown id 5;
click index 3 = one past the end of the three-sample demo curve). -/
theorem C2_failfast_no_mutation_witness :
    processUserClick stdFn0 10 5 true demoDataset [] ModelState.uninit "u1" 5 0 =
      ([], ModelState.uninit, Except.error (GuessError.notFound 5)) ∧
    processUserClick stdFn0 10 5 true demoDataset [] ModelState.uninit "u1" 1 3 =
      ([], ModelState.uninit, Except.error (GuessError.outOfRange 3)) :=
  ⟨(C2_failfast_no_mutation stdFn0 10 5 true demoDataset [] ModelState.uninit "u1" 5 0).1
      (by decide),
   (C2_failfast_no_mutation stdFn0 10 5 true demoDataset [] ModelState.uninit "u1" 1 3).2
      demoLC (by decide) (by decide)⟩

/-- C4: every `increment_score` call sets the score to
`max(0, old_score + delta)`, so after each call of any finite sequence of
calls with arbitrary integer deltas the score is a non-negative integer. -/
theorem C4_score_never_negative (st : Store) (uid : String)
    (deltas : List ℤ) (d : ℤ) :
    (getRec (incrementScore (deltas.foldl (fun s x => incrementScore s uid x) st) uid d)
        uid).score =
      max 0 ((getRec (deltas.foldl (fun s x => incrementScore s uid x) st) uid).score + d) ∧
    0 ≤ (getRec (incrementScore (deltas.foldl (fun s x => incrementScore s uid x) st) uid d)
        uid).score := by
  constructor
  · simp [incrementScore, getRec_modify_self]
  · simp [incrementScore, getRec_modify_self]

/-- C6: `predict_proba` in the Uninitialized state (no prior fit, no model
file loaded) returns exactly 0.5 for every valid `(flux, index)`. -/
theorem C6_cold_start_half (probFn : List (List ℚ × ℤ) → List ℚ → ℚ)
    (stdFn : List ℚ → ℚ) (time flux : List ℚ) (index : ℕ)
    (h : index < flux.length) :
    predictProba probFn stdFn ModelState.uninit time flux index = 1/2 := by
  simp [predictProba, ModelState.uninit]

/-- C6 witness: a concrete valid query on an untrained classifier. -/
theorem C6_cold_start_half_witness :
    0 < ([1, 2, 3] : List ℚ).length ∧
    predictProba (fun _ _ => 1) stdFn0 ModelState.uninit [0, 1, 2] [1, 2, 3] 0 = 1/2 :=
  ⟨by decide,
   C6_cold_start_half (fun _ _ => 1) stdFn0 [0, 1, 2] [1, 2, 3] 0 (by decide)⟩

/-- C7: for every in-range index, `featurize` returns exactly the 4-vector
the spec describes — the flux value, the clamped backward and forward
deltas (zero at the array ends), and the std of the half-open window
`[max(0, index-3), min(length, index+4))`; the extraction is a pure
function of `(flux, index)`. -/
theorem C7_featurize_matches_spec (stdFn : List ℚ → ℚ) (time flux : List ℚ)
    (index : ℕ) (h : index < flux.length) :
    featurize stdFn time flux index = extractSpec stdFn flux index := by
  unfold featurize extractSpec
  simp only []
  split_ifs with h1 h2 h3 h4 <;> first | omega | simp [sub_self]

/-- C7 witness: both boundary clamps observed on a concrete curve. -/
theorem C7_featurize_matches_spec_witness :
    featurize stdFn0 [0, 1, 2] [1, 2, 4] 0 = extractSpec stdFn0 [1, 2, 4] 0 ∧
    featurize stdFn0 [0, 1, 2] [1, 2, 4] 2 = extractSpec stdFn0 [1, 2, 4] 2 :=
  ⟨C7_featurize_matches_spec stdFn0 [0, 1, 2] [1, 2, 4] 0 (by decide),
   C7_featurize_matches_spec stdFn0 [0, 1, 2] [1, 2, 4] 2 (by decide)⟩

/-- C9: whether or not the `partial_fit` retraining step raises, the guess
outcome and the final progression store are identical — the exception is
caught at the orchestration boundary, and on failure the classifier state
is left as before the call. -/
theorem C9_fit_failure_does_not_change_outcome (stdFn : List ℚ → ℚ) (bp pen : ℤ)
    (dataset : Dataset) (store : Store) (model : ModelState)
    (uid : String) (lcId ci : ℤ) :
    (processUserClick stdFn bp pen false dataset store model uid lcId ci).1 =
      (processUserClick stdFn bp pen true dataset store model uid lcId ci).1 ∧
    (processUserClick stdFn bp pen false dataset store model uid lcId ci).2.2 =
      (processUserClick stdFn bp pen true dataset store model uid lcId ci).2.2 ∧
    (processUserClick stdFn bp pen false dataset store model uid lcId ci).2.1 = model := by
  cases hlc : getLightcurve dataset lcId with
  | none => simp [processUserClick, hlc]
  | some lc =>
    by_cases hv : ci < 0 ∨ (lc.label.length : ℤ) ≤ ci
    · simp [processUserClick, hlc, hv]
    · simp [processUserClick, hlc, hv]

/-- C1 counterexample: on a valid guess (known id 1, in-range click 0) the
result dict `process_user_click` returns has no `ai_probability` key at
all, refuting the claim that the outcome contains such a field. -/
theorem C1_counterexample :
    (processUserClick stdFn0 10 5 true demoDataset [] ModelState.uninit "u1" 1 0).2.2 =
      Except.ok { isCorrect := true, newScore := 10, streak := 1,
                  level := "Novice Seeker", badges := [], totalCorrect := 1 } ∧
    dictLookup (resultDict { isCorrect := true, newScore := 10, streak := 1,
                             level := "Novice Seeker", badges := [],
                             totalCorrect := 1 }) "ai_probability" = none :=
  ⟨rfl, rfl⟩

/-- C1 (amended): every outcome `process_user_click` returns carries
exactly the keys is_correct, new_score, streak, level, badges and
total_correct, and no ai_probability key; the classifier's
`predict_proba` is not part of the guess pipeline (an AI probability is
exposed only by the separate `get_ai_hint` boundary operation). -/
theorem C1_outcome_has_no_ai_probability (stdFn : List ℚ → ℚ) (bp pen : ℤ)
    (fitOk : Bool) (dataset : Dataset) (store : Store) (model : ModelState)
    (uid : String) (lcId ci : ℤ) (o : GuessOutcome)
    (h : (processUserClick stdFn bp pen fitOk dataset store model uid lcId ci).2.2 =
      Except.ok o) :
    (resultDict o).map Prod.fst =
      ["is_correct", "new_score", "streak", "level", "badges", "total_correct"] ∧
    dictLookup (resultDict o) "ai_probability" = none :=
  ⟨rfl, rfl⟩

/-- C1 witness: the amended statement at the concrete valid guess of the
counterexample. -/
theorem C1_outcome_has_no_ai_probability_witness :
    (resultDict { isCorrect := true, newScore := 10, streak := 1,
                  level := "Novice Seeker", badges := [],
                  totalCorrect := 1 }).map Prod.fst =
      ["is_correct", "new_score", "streak", "level", "badges", "total_correct"] ∧
    dictLookup (resultDict { isCorrect := true, newScore := 10, streak := 1,
                             level := "Novice Seeker", badges := [],
                             totalCorrect := 1 }) "ai_probability" = none :=
  C1_outcome_has_no_ai_probability stdFn0 10 5 true demoDataset [] ModelState.uninit
    "u1" 1 0
    { isCorrect := true, newScore := 10, streak := 1,
      level := "Novice Seeker", badges := [], totalCorrect := 1 } rfl

/-- C3: on a valid guess with the default configuration (base_points 10,
penalty 5) and a well-formed pre-state (score, streak ≥ 0): a correct
guess raises the streak by exactly 1, adds `10 × new_streak` to the score
and adds 1 to total_correct; an incorrect guess zeroes the streak and
subtracts 5 from the score, clamped at 0.  Moreover the spec's scenario
from `{score: 0, streak: 0}` — correct, correct, incorrect — passes
through `(streak 1, score 10)`, `(streak 2, score 30)`,
`(streak 0, score 25)`. -/
theorem C3_reward_rules :
    (∀ (stdFn : List ℚ → ℚ) (bp pen : ℤ) (fitOk : Bool) (dataset : Dataset)
        (store : Store) (model : ModelState) (uid : String) (lcId ci : ℤ)
        (lc : LightCurve),
      0 ≤ bp →
      getLightcurve dataset lcId = some lc →
      0 ≤ ci → ci < (lc.label.length : ℤ) →
      0 ≤ (getRec store uid).score → 0 ≤ (getRec store uid).streak →
      ∃ o : GuessOutcome,
        (processUserClick stdFn bp pen fitOk dataset store model uid lcId ci).2.2 =
          Except.ok o ∧
        (o.isCorrect = true →
          o.streak = (getRec store uid).streak + 1 ∧
          o.newScore = (getRec store uid).score + bp * ((getRec store uid).streak + 1) ∧
          o.totalCorrect = (getRec store uid).totalCorrect.getD 0 + 1) ∧
        (o.isCorrect = false →
          o.streak = 0 ∧
          o.newScore = max 0 ((getRec store uid).score - pen) ∧
          o.totalCorrect = (getRec store uid).totalCorrect.getD 0)) ∧
    (scen1.2.2 =
      Except.ok { isCorrect := true, newScore := 10, streak := 1,
                  level := "Novice Seeker", badges := [], totalCorrect := 1 } ∧
     scen2.2.2 =
      Except.ok { isCorrect := true, newScore := 30, streak := 2,
                  level := "Novice Seeker", badges := [], totalCorrect := 2 } ∧
     scen3.2.2 =
      Except.ok { isCorrect := false, newScore := 25, streak := 0,
                  level := "Novice Seeker", badges := [], totalCorrect := 2 }) := by
  constructor
  · intro stdFn bp pen fitOk dataset store model uid lcId ci lc hbp hlc h0 hlen hs hk
    obtain ⟨o, ho, _, hcor, hinc⟩ :=
      process_valid_fields stdFn bp pen fitOk dataset store model uid lcId ci lc hlc h0 hlen
    refine ⟨o, ho, ?_, hinc⟩
    intro hc
    obtain ⟨h1, h2, h3⟩ := hcor hc
    refine ⟨h1, ?_, h3⟩
    rw [h2, max_eq_right]
    exact add_nonneg hs (mul_nonneg hbp (by omega))
  · exact ⟨rfl, rfl, rfl⟩

/-- C3 witness: the general clause instantiated at a concrete correct
guess from the empty store. -/
theorem C3_reward_rules_witness :
    ∃ o : GuessOutcome,
      (processUserClick stdFn0 10 5 true demoDataset [] ModelState.uninit "u2" 1 0).2.2 =
        Except.ok o ∧
      (o.isCorrect = true →
        o.streak = (getRec [] "u2").streak + 1 ∧
        o.newScore = (getRec [] "u2").score + 10 * ((getRec [] "u2").streak + 1) ∧
        o.totalCorrect = (getRec [] "u2").totalCorrect.getD 0 + 1) ∧
      (o.isCorrect = false →
        o.streak = 0 ∧
        o.newScore = max 0 ((getRec [] "u2").score - 5) ∧
        o.totalCorrect = (getRec [] "u2").totalCorrect.getD 0) :=
  C3_reward_rules.1 stdFn0 10 5 true demoDataset [] ModelState.uninit "u2" 1 0 demoLC
    (by decide) rfl (by decide) (by decide) (by decide) (by decide)

/-- C8: badge sets are idempotent and monotone — awarding a badge the user
already holds is a no-op on the store; a held badge survives every finite
sequence of store operations and every further `process_user_click`
(including incorrect guesses that reset the streak). -/
theorem C8_badges_idempotent_monotone :
    (∀ (st : Store) (uid b : String), (st.map Prod.fst).Nodup →
      b ∈ (getRec st uid).badges → awardBadge st uid b = st) ∧
    (∀ (st : Store) (uid b : String) (ops : List StoreOp),
      b ∈ (getRec st uid).badges →
      b ∈ (getRec (ops.foldl applyOp st) uid).badges) ∧
    (∀ (stdFn : List ℚ → ℚ) (bp pen : ℤ) (fitOk : Bool) (dataset : Dataset)
        (store : Store) (model : ModelState) (userId : String) (lcId ci : ℤ)
        (uid b : String),
      b ∈ (getRec store uid).badges →
      b ∈ (getRec (processUserClick stdFn bp pen fitOk dataset store model
        userId lcId ci).1 uid).badges) := by
  refine ⟨?_, ?_, ?_⟩
  · intro st uid b hnd hb
    cases h : findUser st uid with
    | none =>
      rw [getRec, h] at hb
      simp [defaultUser] at hb
    | some u =>
      have hu : getRec st uid = u := by rw [getRec, h]; rfl
      rw [hu] at hb
      have hens : ensureUser st uid = st := by unfold ensureUser; rw [h]
      unfold awardBadge modifyUser
      rw [hens]
      dsimp only
      rw [hu, if_pos hb]
      exact writeUser_self hnd h
  · intro st uid b ops hb
    exact badge_mem_foldl ops st uid b hb
  · intro stdFn bp pen fitOk dataset store model userId lcId ci uid b hb
    exact badge_mem_processUserClick stdFn bp pen fitOk dataset store model
      userId lcId ci uid b hb

/-- C8 witness: a held badge is untouched by re-awarding it, by a losing
score/streak update sequence, and by an incorrect guess. -/
theorem C8_badges_idempotent_monotone_witness :
    awardBadge badgeStore "u1" "Rare Candidate" = badgeStore ∧
    "Rare Candidate" ∈
      (getRec ([StoreOp.incScore "u1" (-5), StoreOp.setStreakOp "u1" 0].foldl
        applyOp badgeStore) "u1").badges ∧
    "Rare Candidate" ∈
      (getRec (processUserClick stdFn0 10 5 true demoDataset badgeStore
        ModelState.uninit "u1" 1 2).1 "u1").badges :=
  ⟨C8_badges_idempotent_monotone.1 badgeStore "u1" "Rare Candidate"
      (by decide) (by decide),
   C8_badges_idempotent_monotone.2.1 badgeStore "u1" "Rare Candidate"
      [StoreOp.incScore "u1" (-5), StoreOp.setStreakOp "u1" 0] (by decide),
   C8_badges_idempotent_monotone.2.2 stdFn0 10 5 true demoDataset badgeStore
      ModelState.uninit "u1" 1 2 "u1" "Rare Candidate" (by decide)⟩

/-- C10 (implicit): while the classifier is Uninitialized, `get_ai_hint`
reports `ai_prediction = 1` (transit) with probability 0.5 for every valid
click on every curve, because the cold-start 0.5 meets the `>= 0.5`
threshold; `ModelWrapper.predict` at its default threshold agrees. -/
theorem C10_cold_start_hint_predicts_transit
    (probFn : List (List ℚ × ℤ) → List ℚ → ℚ) (stdFn : List ℚ → ℚ)
    (dataset : Dataset) (model : ModelState) (lcId ci : ℤ) (lc : LightCurve)
    (hm : model.trained = false)
    (hlc : getLightcurve dataset lcId = some lc)
    (h0 : 0 ≤ ci) (hlen : ci < (lc.time.length : ℤ)) :
    getAiHint probFn stdFn dataset model lcId ci =
      Except.ok { aiProbability := 1/2, aiPrediction := 1 } ∧
    predict probFn stdFn model lc.time lc.flux ci.toNat (1/2) = 1 := by
  have hneg : ¬ (ci < 0 ∨ (lc.time.length : ℤ) ≤ ci) := by
    rw [not_or]; constructor <;> omega
  constructor
  · simp [getAiHint, hlc, hneg, predictProba, hm]
  · simp [predict, predictProba, hm]

/-- C10 witness: the untrained hint on the demo curve. -/
theorem C10_cold_start_hint_predicts_transit_witness :
    getAiHint (fun _ _ => 1) stdFn0 demoDataset ModelState.uninit 1 1 =
      Except.ok { aiProbability := 1/2, aiPrediction := 1 } ∧
    predict (fun _ _ => 1) stdFn0 ModelState.uninit demoLC.time demoLC.flux
      (Int.toNat 1) (1/2) = 1 :=
  C10_cold_start_hint_predicts_transit (fun _ _ => 1) stdFn0 demoDataset
    ModelState.uninit 1 1 demoLC rfl rfl (by decide) (by decide)

/-- C5: for every store state and every `top_n`, the leaderboard is sorted
by score descending; the underlying `(score, user_id)` sequence is sorted
in the full deterministic `lexGE` tie-break order (so the ordering of ties
is pinned and repeated queries over unchanged data — a pure function of
the store — return the identical sequence); and when `top_n` is at least
the number of users, every user appears, still in sorted order. -/
theorem C5_leaderboard_sorted (st : Store) (topN : ℕ) :
    ((getLeaderboard st topN).map (fun e => (e.score, e.userId))).Sorted lexGE ∧
    (getLeaderboard st topN).Sorted (fun a b => b.score ≤ a.score) ∧
    (st.length ≤ topN →
      (getLeaderboard st topN).length = st.length ∧
      ((getLeaderboard st topN).map LBEntry.userId).Perm (st.map Prod.fst)) := by
  have hsorted : ((List.insertionSort lexGE (st.map fun p => (p.2.score, p.1))).take
      topN).Sorted lexGE :=
    List.Pairwise.sublist (List.take_sublist _ _) (List.sorted_insertionSort lexGE _)
  have hmap : (getLeaderboard st topN).map (fun e => (e.score, e.userId)) =
      (List.insertionSort lexGE (st.map fun p => (p.2.score, p.1))).take topN := by
    simp only [getLeaderboard, List.map_map]
    exact List.map_id'' (fun q => Prod.mk.eta) _
  refine ⟨hmap ▸ hsorted, ?_, ?_⟩
  · simp only [getLeaderboard]
    exact List.pairwise_map.mpr (hsorted.imp (fun hab => by
      rcases hab with h | ⟨h, _⟩
      · exact le_of_lt h
      · exact le_of_eq h.symm))
  · intro hlen
    have hfull : (List.insertionSort lexGE (st.map fun p => (p.2.score, p.1))).take topN =
        List.insertionSort lexGE (st.map fun p => (p.2.score, p.1)) := by
      apply List.take_of_length_le
      simpa using hlen
    constructor
    · simp [getLeaderboard, hfull]
    · have hp := (List.perm_insertionSort lexGE (st.map fun p => (p.2.score, p.1))).map
        Prod.snd
      simp only [getLeaderboard, hfull, List.map_map]
      simpa [List.map_map, Function.comp] using hp

/-- C5 witness: the spec's scenario — `top_n = 5` over 3 users returns all
3 in sorted order. -/
theorem C5_leaderboard_sorted_witness :
    (getLeaderboard lbStore 5).Sorted (fun a b => b.score ≤ a.score) ∧
    (getLeaderboard lbStore 5).length = lbStore.length ∧
    ((getLeaderboard lbStore 5).map LBEntry.userId).Perm (lbStore.map Prod.fst) :=
  ⟨(C5_leaderboard_sorted lbStore 5).2.1,
   ((C5_leaderboard_sorted lbStore 5).2.2 (by decide)).1,
   ((C5_leaderboard_sorted lbStore 5).2.2 (by decide)).2⟩

end AstroGuessr
